import Mathlib

/-!
Shallow embedding of `src/examples/table.rs` (the ratatui table example):
the navigation state (`App`), the palette resolution (`TableColors::new`),
the column-width calculator (`constraint_len_calculator`) and the decision
logic of the interaction loop (`run_app`).

Machine integers (`usize`) are modelled as `Nat`; the one place where the
source performs a subtraction that can underflow (`self.items.len() - 1`)
is modelled explicitly: functions that can reach Rust's overflow panic
return `Except String`, with `.error` standing for the panic. The `as u16`
cast at the end of `constraint_len_calculator` is modelled as `% 65536`.
-/

namespace TableExample

/-- An RGB color, modelling ratatui's `Color::Rgb` values used by the
tailwind palette constants. -/
structure Color where
  r : Nat
  g : Nat
  b : Nat
  deriving DecidableEq, Repr

/-- Modelled from the spec: the tailwind palette type lives in the ratatui
library outside `src/`; the spec describes a Palette as a named set of
color roles selected from a fixed list. Only the color steps that
`TableColors::new` reads (c200, c400, c900, c950) are modelled. -/
structure Palette where
  c200 : Color
  c400 : Color
  c900 : Color
  c950 : Color
  deriving DecidableEq, Repr

/-- Modelled from the spec: the tailwind SLATE constant (neutral source). -/
def SLATE : Palette :=
  { c200 := ⟨0xe2, 0xe8, 0xf0⟩
    c400 := ⟨0x94, 0xa3, 0xb8⟩
    c900 := ⟨0x0f, 0x17, 0x2a⟩
    c950 := ⟨0x02, 0x06, 0x17⟩ }

/-- Modelled from the spec: the tailwind BLUE accent palette. -/
def BLUE : Palette :=
  { c200 := ⟨0xbf, 0xdb, 0xfe⟩
    c400 := ⟨0x60, 0xa5, 0xfa⟩
    c900 := ⟨0x1e, 0x3a, 0x8a⟩
    c950 := ⟨0x17, 0x25, 0x54⟩ }

/-- Modelled from the spec: the tailwind EMERALD accent palette. -/
def EMERALD : Palette :=
  { c200 := ⟨0xa7, 0xf3, 0xd0⟩
    c400 := ⟨0x34, 0xd3, 0x99⟩
    c900 := ⟨0x06, 0x4e, 0x3b⟩
    c950 := ⟨0x02, 0x2c, 0x22⟩ }

/-- Modelled from the spec: the tailwind INDIGO accent palette. -/
def INDIGO : Palette :=
  { c200 := ⟨0xc7, 0xd2, 0xfe⟩
    c400 := ⟨0x81, 0x8c, 0xf8⟩
    c900 := ⟨0x31, 0x2e, 0x81⟩
    c950 := ⟨0x1e, 0x1b, 0x4b⟩ }

/-- Modelled from the spec: the tailwind RED accent palette. -/
def RED : Palette :=
  { c200 := ⟨0xfe, 0xca, 0xca⟩
    c400 := ⟨0xf8, 0x71, 0x71⟩
    c900 := ⟨0x7f, 0x1d, 0x1d⟩
    c950 := ⟨0x45, 0x0a, 0x0a⟩ }

/-- Source constant `const PALETTES: [tailwind::Palette; 4]` from the source. -/
def PALETTES : List Palette := [BLUE, EMERALD, INDIGO, RED]

/-- Source constant `const ITEM_HEIGHT: usize = 4` from the source. -/
def ITEM_HEIGHT : Nat := 4

/-- Source struct `TableColors`: the eight color roles. -/
structure TableColors where
  buffer_bg : Color
  header_bg : Color
  header_fg : Color
  row_fg : Color
  selected_style_fg : Color
  normal_row_color : Color
  alt_row_color : Color
  footer_border_color : Color
  deriving DecidableEq, Repr

/-- Source function `TableColors::new`: neutral roles come from `SLATE`,
accent roles from the given palette's c900 / c400 steps. -/
def TableColors.new (color : Palette) : TableColors :=
  { buffer_bg := SLATE.c950
    header_bg := color.c900
    header_fg := SLATE.c200
    row_fg := SLATE.c200
    selected_style_fg := color.c400
    normal_row_color := SLATE.c950
    alt_row_color := SLATE.c900
    footer_border_color := color.c400 }

/-- Source struct `Data`: one record with three text fields. -/
structure Data where
  name : String
  address : String
  email : String
  deriving DecidableEq, Repr

/-- Modelled from the spec: ratatui's `TableState` lives outside `src/`;
the spec's Navigation State only tracks the optional selected row index,
which is the one field the example reads and writes. -/
structure TableState where
  selected : Option Nat
  deriving DecidableEq, Repr

/-- Rust `TableState::default()`: no row selected. -/
def TableState.default : TableState := ⟨none⟩

/-- Rust `TableState::with_selected`: set the selected row. -/
def TableState.with_selected (s : TableState) (i : Nat) : TableState :=
  { s with selected := some i }

/-- Rust `TableState::select`: replace the selected row. -/
def TableState.select (s : TableState) (i : Option Nat) : TableState :=
  { s with selected := i }

/-- Modelled from the spec: ratatui's `ScrollbarState` lives outside
`src/`; the spec describes it by its total content length and its current
position (the scroll offset). -/
structure ScrollbarState where
  content_length : Nat
  position : Nat
  deriving DecidableEq, Repr

/-- Rust `ScrollbarState::new(content_length)`: position starts at 0. -/
def ScrollbarState.new (content_length : Nat) : ScrollbarState :=
  ⟨content_length, 0⟩

/-- Rust `ScrollbarState::position`: set the current position (named
`setPosition` here because the field keeps the source's name). -/
def ScrollbarState.setPosition (s : ScrollbarState) (p : Nat) : ScrollbarState :=
  { s with position := p }

/-- Modelled from the spec: the display-width metric of the external
`unicode_width` crate. The spec fixes the behaviour this development
relies on: zero-width combining marks count 0 columns, East-Asian wide
characters count 2 columns, everything else counts 1. -/
def charWidth (c : Char) : Nat :=
  if 0x300 ≤ c.toNat ∧ c.toNat ≤ 0x36f then 0
  else if (0x1100 ≤ c.toNat ∧ c.toNat ≤ 0x115f) ∨ (0x2e80 ≤ c.toNat ∧ c.toNat ≤ 0x303e)
      ∨ (0x3041 ≤ c.toNat ∧ c.toNat ≤ 0x33ff) ∨ (0x3400 ≤ c.toNat ∧ c.toNat ≤ 0x4dbf)
      ∨ (0x4e00 ≤ c.toNat ∧ c.toNat ≤ 0x9fff) ∨ (0xac00 ≤ c.toNat ∧ c.toNat ≤ 0xd7a3)
      ∨ (0xf900 ≤ c.toNat ∧ c.toNat ≤ 0xfaff) ∨ (0xff00 ≤ c.toNat ∧ c.toNat ≤ 0xff60)
      ∨ (0xffe0 ≤ c.toNat ∧ c.toNat ≤ 0xffe6) then 2
  else 1

/-- Width of a string under `UnicodeWidthStr::width`: sum of its characters' widths. -/
def strWidth (s : String) : Nat := (s.data.map charWidth).sum

/-- Modelled from the spec: `str::lines` of the Rust standard library
(outside this repository). Splits at line feeds, strips a carriage return
standing immediately before a line feed, and drops an optional final line
terminator. The accumulator holds the current line reversed. -/
def linesAux (acc : List Char) : List Char → List String
  | [] => if acc.isEmpty then [] else [String.mk acc.reverse]
  | c :: rest =>
    if c = '\n' then
      String.mk (if acc.head? = some '\r' then acc.tail.reverse else acc.reverse)
        :: linesAux [] rest
    else
      linesAux (c :: acc) rest

/-- The lines of a string, in order. -/
def linesOf (s : String) : List String := linesAux [] s.data

/-- Rust `.max().unwrap_or(0)` on an iterator of `usize` values. -/
def maxOrZero (l : List Nat) : Nat := (l.max?).getD 0

/-- Source function `constraint_len_calculator`: maximum display width of
the name field, of all lines of the address fields, and of the email
field, each cast `as u16` (modelled as `% 65536`). -/
def constraint_len_calculator (items : List Data) : Nat × Nat × Nat :=
  let name_len := maxOrZero (items.map fun d => strWidth d.name)
  let address_len := maxOrZero ((items.flatMap fun d => linesOf d.address).map strWidth)
  let email_len := maxOrZero (items.map fun d => strWidth d.email)
  (name_len % 65536, address_len % 65536, email_len % 65536)

/-- Source struct `App`. -/
structure App where
  state : TableState
  items : List Data
  longest_item_lens : Nat × Nat × Nat
  scroll_state : ScrollbarState
  colors : TableColors
  color_index : Nat
  deriving DecidableEq, Repr

/-- The common tail of `App::next` and `App::previous`:
`self.state.select(Some(i)); self.scroll_state = self.scroll_state.position(i * ITEM_HEIGHT)`. -/
def App.applySelection (a : App) (i : Nat) : App :=
  { a with
    state := a.state.select (some i)
    scroll_state := a.scroll_state.setPosition (i * ITEM_HEIGHT) }

/-- Source method `App::next`. When a row is selected the source
evaluates `self.items.len() - 1`, which panics on an empty item list;
the panic is the `.error` branch. -/
def App.next (a : App) : Except String App :=
  match a.state.selected with
  | some i =>
    if a.items.length = 0 then
      .error "attempt to subtract with overflow"
    else
      .ok (a.applySelection (if a.items.length - 1 ≤ i then 0 else i + 1))
  | none => .ok (a.applySelection 0)

/-- Source method `App::previous`. The subtraction
`self.items.len() - 1` is only evaluated in the `i == 0` branch, so only
that branch can panic on an empty item list. -/
def App.previous (a : App) : Except String App :=
  match a.state.selected with
  | some i =>
    if i = 0 then
      if a.items.length = 0 then
        .error "attempt to subtract with overflow"
      else
        .ok (a.applySelection (a.items.length - 1))
    else
      .ok (a.applySelection (i - 1))
  | none => .ok (a.applySelection 0)

/-- Source method `App::next_color`. -/
def App.next_color (a : App) : App :=
  { a with color_index := (a.color_index + 1) % PALETTES.length }

/-- Source method `App::previous_color`. -/
def App.previous_color (a : App) : App :=
  let count := PALETTES.length
  { a with color_index := (a.color_index + count - 1) % count }

/-- Source constructor `App::new`, with the randomly generated dataset of
`generate_fake_names()` abstracted as the `data_vec` parameter (the data
source is an external collaborator producing 20 records). -/
def App.new (data_vec : List Data) : App :=
  { state := TableState.default.with_selected 0
    longest_item_lens := constraint_len_calculator data_vec
    scroll_state := ScrollbarState.new ((data_vec.length - 1) * ITEM_HEIGHT)
    colors := TableColors.new (PALETTES.get ⟨0, by decide⟩)
    color_index := 0
    items := data_vec }

/-- The four navigation commands of the spec's Navigation State. -/
inductive NavOp where
  | nextRow
  | previousRow
  | nextColor
  | previousColor
  deriving DecidableEq, Repr

/-- Apply one navigation command to the app state. -/
def App.applyNav (a : App) : NavOp → Except String App
  | .nextRow => a.next
  | .previousRow => a.previous
  | .nextColor => .ok a.next_color
  | .previousColor => .ok a.previous_color

/-- Apply a finite sequence of navigation commands, stopping at a panic. -/
def runNav (a : App) : List NavOp → Except String App
  | [] => .ok a
  | op :: rest => (a.applyNav op).bind fun a2 => runNav a2 rest

/-- Modelled from the spec: the key codes of the external input layer
(crossterm), reduced to the codes `run_app` matches on plus a catch-all
for every other code. -/
inductive KeyCode where
  | char (c : Char)
  | down
  | up
  | left
  | right
  | esc
  | otherCode
  deriving DecidableEq, Repr

/-- Modelled from the spec: the kind of a key event; only presses are
acted on, releases and repeats are the ignored artifacts. -/
inductive KeyEventKind where
  | press
  | release
  | repeated
  deriving DecidableEq, Repr

/-- Modelled from the spec: one event from the input collaborator: a key
event with kind and code, or any non-key event (resize, mouse, ...). -/
inductive Event where
  | key (kind : KeyEventKind) (code : KeyCode)
  | nonKey
  deriving DecidableEq, Repr

/-- The `match key.code` arms of `run_app`: `Ok none` models
`return Ok(())` (exit), `Ok (some a)` models staying in the loop with the
updated app, `.error` models a panic inside a navigation call. The guard
chain mirrors the or-patterns of the source match. -/
def handleKeyPress (a : App) (code : KeyCode) : Except String (Option App) :=
  if code = .char 'q' ∨ code = .esc then .ok none
  else if code = .char 'j' ∨ code = .down then a.next.map some
  else if code = .char 'k' ∨ code = .up then a.previous.map some
  else if code = .char 'l' ∨ code = .right then .ok (some a.next_color)
  else if code = .char 'h' ∨ code = .left then .ok (some a.previous_color)
  else .ok (some a)

/-- Outcome of running the loop on a finite event list. -/
inductive LoopOutcome where
  | exited (a : App)
  | blocked (a : App)
  | panicked (msg : String)
  deriving DecidableEq, Repr

/-- Source function `run_app`, over a finite list of incoming events:
each iteration draws once, then blocks for the next event; non-key events
and non-press key events are ignored. Returns the number of draws
performed together with the outcome; an exhausted event list leaves the
loop blocked after its final draw. -/
def run_app (a : App) : List Event → Nat × LoopOutcome
  | [] => (1, .blocked a)
  | e :: rest =>
    match e with
    | .key kind code =>
      if kind = .press then
        match handleKeyPress a code with
        | .error msg => (1, .panicked msg)
        | .ok none => (1, .exited a)
        | .ok (some a2) =>
          let r := run_app a2 rest
          (r.1 + 1, r.2)
      else
        let r := run_app a rest
        (r.1 + 1, r.2)
    | .nonKey =>
      let r := run_app a rest
      (r.1 + 1, r.2)

/-! ## Sample data used for concrete scenarios and witnesses -/

/-- A record with empty fields, standing in for one generated record. -/
def sampleRecord : Data := { name := "", address := "", email := "" }

/-- The app as built at startup: 20 records, like `generate_fake_names`. -/
def sampleApp : App := App.new (List.replicate 20 sampleRecord)

/-- The two-record dataset of the source's `constraint_len_calculator`
unit test (spec scenario 4). -/
def testData : List Data :=
  [{ name := "Emirhan Tala"
     address := "Cambridgelaan 6XX\n3584 XX Utrecht"
     email := "tala.emirhan@gmail.com" },
   { name := "thistextis26characterslong"
     address := "this line is 31 characters long\nbottom line is 33 characters long"
     email := "thisemailis40caharacterslong@ratatui.com" }]

/-- An app whose item list is empty while a row is selected: the
configuration on which the navigation subtraction underflows. -/
def brokenApp : App :=
  { state := ⟨some 0⟩
    items := []
    longest_item_lens := (0, 0, 0)
    scroll_state := ⟨0, 0⟩
    colors := TableColors.new BLUE
    color_index := 0 }

/-! ## Helper lemmas: selection update -/

@[simp] lemma App.applySelection_selected (a : App) (i : Nat) :
    (a.applySelection i).state.selected = some i := rfl

@[simp] lemma App.applySelection_position (a : App) (i : Nat) :
    (a.applySelection i).scroll_state.position = i * ITEM_HEIGHT := rfl

@[simp] lemma App.applySelection_items (a : App) (i : Nat) :
    (a.applySelection i).items = a.items := rfl

@[simp] lemma App.applySelection_colors (a : App) (i : Nat) :
    (a.applySelection i).colors = a.colors := rfl

@[simp] lemma App.applySelection_color_index (a : App) (i : Nat) :
    (a.applySelection i).color_index = a.color_index := rfl

@[simp] lemma App.applySelection_longest (a : App) (i : Nat) :
    (a.applySelection i).longest_item_lens = a.longest_item_lens := rfl

@[simp] lemma App.next_color_color_index (a : App) :
    a.next_color.color_index = (a.color_index + 1) % 4 := rfl

@[simp] lemma App.previous_color_color_index (a : App) :
    a.previous_color.color_index = (a.color_index + 4 - 1) % 4 := rfl

@[simp] lemma App.next_color_state (a : App) : a.next_color.state = a.state := rfl

@[simp] lemma App.next_color_items (a : App) : a.next_color.items = a.items := rfl

@[simp] lemma App.next_color_scroll (a : App) :
    a.next_color.scroll_state = a.scroll_state := rfl

@[simp] lemma App.previous_color_state (a : App) :
    a.previous_color.state = a.state := rfl

@[simp] lemma App.previous_color_items (a : App) :
    a.previous_color.items = a.items := rfl

@[simp] lemma App.previous_color_scroll (a : App) :
    a.previous_color.scroll_state = a.scroll_state := rfl

/-- With a valid selection, `App::next` succeeds and moves the selection
to `(i + 1) mod n`, exactly as the spec's modular formula says. -/
lemma App.next_eq (a : App) (i : Nat) (hs : a.state.selected = some i)
    (hi : i < a.items.length) :
    a.next = .ok (a.applySelection ((i + 1) % a.items.length)) := by
  have hne : a.items.length ≠ 0 := by omega
  rcases Nat.lt_or_ge i (a.items.length - 1) with h | h
  · have hlt : ¬ (a.items.length - 1 ≤ i) := by omega
    have hmod : (i + 1) % a.items.length = i + 1 := Nat.mod_eq_of_lt (by omega)
    simp [App.next, hs, hne, hlt, hmod]
  · have hge : a.items.length - 1 ≤ i := h
    have hmod : (i + 1) % a.items.length = 0 := by
      have : i + 1 = a.items.length := by omega
      rw [this, Nat.mod_self]
    simp [App.next, hs, hne, hge, hmod]

/-- With a valid selection, `App::previous` succeeds and moves the
selection to `(i - 1 + n) mod n` (written `(i + n - 1) mod n` over `Nat`). -/
lemma App.previous_eq (a : App) (i : Nat) (hs : a.state.selected = some i)
    (hi : i < a.items.length) :
    a.previous = .ok (a.applySelection ((i + a.items.length - 1) % a.items.length)) := by
  have hne : a.items.length ≠ 0 := by omega
  rcases Nat.eq_zero_or_pos i with h0 | h0
  · subst h0
    have hmod : (0 + a.items.length - 1) % a.items.length = a.items.length - 1 := by
      rw [Nat.mod_eq_of_lt (by omega), Nat.zero_add]
    simp [App.previous, hs, hne, hmod]
  · have hi0 : i ≠ 0 := by omega
    have heq : i + a.items.length - 1 = (i - 1) + a.items.length := by omega
    have hmod : (i + a.items.length - 1) % a.items.length = i - 1 := by
      rw [heq, Nat.add_mod_right]
      exact Nat.mod_eq_of_lt (by omega)
    simp [App.previous, hs, hi0, hmod]

/-- With no selection, `App::next` selects row 0. -/
lemma App.next_none (a : App) (hs : a.state.selected = none) :
    a.next = .ok (a.applySelection 0) := by
  simp [App.next, hs]

/-- With no selection, `App::previous` selects row 0. -/
lemma App.previous_none (a : App) (hs : a.state.selected = none) :
    a.previous = .ok (a.applySelection 0) := by
  simp [App.previous, hs]

/-- Every successful `App::next` result is a selection update. -/
lemma App.next_ok_shape (a b : App) (h : a.next = .ok b) :
    ∃ j, b = a.applySelection j := by
  unfold App.next at h
  split at h
  · split at h
    · cases h
    · exact ⟨_, (Except.ok.inj h).symm⟩
  · exact ⟨0, (Except.ok.inj h).symm⟩

/-- Every successful `App::previous` result is a selection update. -/
lemma App.previous_ok_shape (a b : App) (h : a.previous = .ok b) :
    ∃ j, b = a.applySelection j := by
  unfold App.previous at h
  split at h
  · split at h
    · split at h
      · cases h
      · exact ⟨_, (Except.ok.inj h).symm⟩
    · exact ⟨_, (Except.ok.inj h).symm⟩
  · exact ⟨0, (Except.ok.inj h).symm⟩

/-! ## Helper lemmas: maxima and widths -/

/-- Unfolding lemma: the calculator is a triple of truncated maxima. -/
lemma constraint_len_calculator_def (items : List Data) :
    constraint_len_calculator items =
      (maxOrZero (items.map fun d => strWidth d.name) % 65536,
       maxOrZero ((items.flatMap fun d => linesOf d.address).map strWidth) % 65536,
       maxOrZero (items.map fun d => strWidth d.email) % 65536) := rfl

lemma le_maxOrZero {l : List Nat} {x : Nat} (hx : x ∈ l) : x ≤ maxOrZero l := by
  cases h : l.max? with
  | none =>
    rw [List.max?_eq_none_iff] at h
    subst h
    cases hx
  | some m =>
    have hle := (List.max?_le_iff (fun u v w => max_le_iff) h).mp le_rfl x hx
    simpa [maxOrZero, h] using hle

lemma maxOrZero_mem {l : List Nat} (h : l ≠ []) : maxOrZero l ∈ l := by
  cases hm : l.max? with
  | none =>
    rw [List.max?_eq_none_iff] at hm
    exact absurd hm h
  | some m =>
    have := List.max?_mem (fun u v => max_choice u v) hm
    simpa [maxOrZero, hm]

lemma maxOrZero_zero_or_mem (l : List Nat) : maxOrZero l = 0 ∨ maxOrZero l ∈ l := by
  cases l with
  | nil => exact Or.inl rfl
  | cons a as => exact Or.inr (maxOrZero_mem (List.cons_ne_nil a as))

lemma le_foldrMax {l : List Nat} {x : Nat} (hx : x ∈ l) : x ≤ l.foldr max 0 := by
  induction l with
  | nil => cases hx
  | cons a as ih =>
    rcases List.mem_cons.mp hx with h | h
    · subst h; exact le_max_left _ _
    · exact le_trans (ih h) (le_max_right _ _)

lemma maxOrZero_eq_foldr (l : List Nat) : maxOrZero l = l.foldr max 0 := by
  apply le_antisymm
  · rcases maxOrZero_zero_or_mem l with h | h
    · rw [h]; exact Nat.zero_le _
    · exact le_foldrMax h
  · induction l with
    | nil => exact le_rfl
    | cons a as ih =>
      apply max_le (le_maxOrZero (List.mem_cons_self a as))
      rcases maxOrZero_zero_or_mem as with h | h
      · rw [h] at ih
        exact le_trans ih (Nat.zero_le _)
      · exact le_trans ih (le_maxOrZero (List.mem_cons_of_mem a h))

/-- Width of a constant string: used to build oversized inputs without
evaluating them character by character. -/
lemma strWidth_replicate (n : Nat) (c : Char) :
    strWidth (String.mk (List.replicate n c)) = n * charWidth c := by
  simp [strWidth, List.map_replicate, List.sum_replicate, smul_eq_mul]

/-! ## Claim theorems -/

/-- C4: the code's conditional wraparound is equivalent to the spec's
modular formulas. For every current selection `i < n`, `next` moves the
selection to `(i + 1) mod n` and `previous` to `(i - 1 + n) mod n`
(written `(i + n - 1) mod n` over `Nat`); with no selection both select
row 0. -/
theorem nav_matches_modular_spec (a : App) :
    (∀ i, a.state.selected = some i → i < a.items.length →
      (∃ a2, a.next = .ok a2 ∧
        a2.state.selected = some ((i + 1) % a.items.length)) ∧
      (∃ a2, a.previous = .ok a2 ∧
        a2.state.selected = some ((i + a.items.length - 1) % a.items.length))) ∧
    (a.state.selected = none →
      (∃ a2, a.next = .ok a2 ∧ a2.state.selected = some 0) ∧
      (∃ a2, a.previous = .ok a2 ∧ a2.state.selected = some 0)) := by
  constructor
  · intro i hs hi
    exact ⟨⟨_, App.next_eq a i hs hi, by simp⟩,
      ⟨_, App.previous_eq a i hs hi, by simp⟩⟩
  · intro hs
    exact ⟨⟨_, App.next_none a hs, by simp⟩,
      ⟨_, App.previous_none a hs, by simp⟩⟩

/-- C4 witness: the modular characterization evaluated on the startup
app (20 items, row 0 selected). -/
theorem nav_matches_modular_spec_witness :
    (∃ a2, sampleApp.next = .ok a2 ∧
      a2.state.selected = some ((0 + 1) % sampleApp.items.length)) ∧
    (∃ a2, sampleApp.previous = .ok a2 ∧
      a2.state.selected =
        some ((0 + sampleApp.items.length - 1) % sampleApp.items.length)) :=
  (nav_matches_modular_spec sampleApp).1 0 rfl (by decide)

/-- Method `App::next` cannot panic on a nonempty item list. -/
lemma App.next_ok_of_len (a : App) (hlen : a.items.length ≠ 0) :
    ∃ b, a.next = .ok b := by
  rcases hsel : a.state.selected with _ | i
  · exact ⟨_, App.next_none a hsel⟩
  · refine ⟨a.applySelection (if a.items.length - 1 ≤ i then 0 else i + 1), ?_⟩
    simp [App.next, hsel, hlen]

/-- Method `App::previous` cannot panic on a nonempty item list. -/
lemma App.previous_ok_of_len (a : App) (hlen : a.items.length ≠ 0) :
    ∃ b, a.previous = .ok b := by
  rcases hsel : a.state.selected with _ | i
  · exact ⟨_, App.previous_none a hsel⟩
  · rcases Nat.eq_zero_or_pos i with h0 | h0
    · subst h0
      refine ⟨a.applySelection (a.items.length - 1), ?_⟩
      simp [App.previous, hsel, hlen]
    · have hi0 : i ≠ 0 := by omega
      refine ⟨a.applySelection (i - 1), ?_⟩
      simp [App.previous, hsel, hi0]

/-- C5 counterexample: on an empty item list with a selected row, both
`next` and `previous` do reach the panic branch (the underflow of
`self.items.len() - 1`), so the four operations do not avoid the panic
branch for every item list. -/
theorem nav_never_panics_counterexample :
    brokenApp.items = [] ∧
    brokenApp.next = .error "attempt to subtract with overflow" ∧
    brokenApp.previous = .error "attempt to subtract with overflow" :=
  ⟨rfl, rfl, rfl⟩

/-- C5 amended: the navigation operations never panic on any state whose
item list is nonempty (single-element lists included) or whose selection
is `None`; the color operations never panic at all. Only an empty item
list with a selected row reaches the panic branch. -/
theorem nav_never_panics_amended (a : App) (op : NavOp)
    (h : op = .nextColor ∨ op = .previousColor ∨ 1 ≤ a.items.length ∨
      a.state.selected = none) :
    ∃ a2, a.applyNav op = .ok a2 := by
  cases op with
  | nextColor => exact ⟨_, rfl⟩
  | previousColor => exact ⟨_, rfl⟩
  | nextRow =>
    have h2 : 1 ≤ a.items.length ∨ a.state.selected = none := by
      rcases h with h | h | h | h
      · cases h
      · cases h
      · exact Or.inl h
      · exact Or.inr h
    simp only [App.applyNav]
    rcases h2 with hlen | hnone
    · exact App.next_ok_of_len a (by omega)
    · exact ⟨_, App.next_none a hnone⟩
  | previousRow =>
    have h2 : 1 ≤ a.items.length ∨ a.state.selected = none := by
      rcases h with h | h | h | h
      · cases h
      · cases h
      · exact Or.inl h
      · exact Or.inr h
    simp only [App.applyNav]
    rcases h2 with hlen | hnone
    · exact App.previous_ok_of_len a (by omega)
    · exact ⟨_, App.previous_none a hnone⟩

/-- C5 witness: the amended no-panic theorem evaluated on the startup
app and the `next` command. -/
theorem nav_never_panics_amended_witness :
    ∃ a2, sampleApp.applyNav NavOp.nextRow = .ok a2 :=
  nav_never_panics_amended sampleApp .nextRow (Or.inr (Or.inr (Or.inl (by decide))))

/-- C6: theme cycling with k = 4 palettes. Both color operations keep
`color_index` below 4; from any in-range index, four `next_color` steps
are the identity and `previous_color` is the inverse of `next_color`;
from index 0, `previous_color` yields 3. -/
theorem theme_cycling (a : App) :
    (a.next_color.color_index < 4 ∧ a.previous_color.color_index < 4) ∧
    (a.color_index < 4 →
      a.next_color.next_color.next_color.next_color.color_index = a.color_index ∧
      a.next_color.previous_color.color_index = a.color_index ∧
      a.previous_color.next_color.color_index = a.color_index) ∧
    (a.color_index = 0 → a.previous_color.color_index = 3) := by
  refine ⟨⟨?_, ?_⟩, fun h => ⟨?_, ?_, ?_⟩, fun h => ?_⟩ <;>
    simp only [App.next_color_color_index, App.previous_color_color_index] <;>
    omega

/-- C6 witness: theme cycling evaluated on the startup app
(color index 0). -/
theorem theme_cycling_witness :
    sampleApp.next_color.next_color.next_color.next_color.color_index
      = sampleApp.color_index ∧
    sampleApp.previous_color.color_index = 3 :=
  ⟨((theme_cycling sampleApp).2.1 (by decide)).1,
   (theme_cycling sampleApp).2.2 (by decide)⟩

/-- C8: palette structure. Any two palettes resolved by
`TableColors::new` from the four-entry palette list agree on the five
neutral roles; if they also agree on the three accent-derived roles they
are identical (so any difference is confined to the accent roles); and
resolving the same index twice yields identical palettes. -/
theorem palette_structure (i j : Nat)
    (hi : i < PALETTES.length) (hj : j < PALETTES.length) :
    ((TableColors.new (PALETTES.get ⟨i, hi⟩)).buffer_bg
        = (TableColors.new (PALETTES.get ⟨j, hj⟩)).buffer_bg ∧
      (TableColors.new (PALETTES.get ⟨i, hi⟩)).header_fg
        = (TableColors.new (PALETTES.get ⟨j, hj⟩)).header_fg ∧
      (TableColors.new (PALETTES.get ⟨i, hi⟩)).row_fg
        = (TableColors.new (PALETTES.get ⟨j, hj⟩)).row_fg ∧
      (TableColors.new (PALETTES.get ⟨i, hi⟩)).normal_row_color
        = (TableColors.new (PALETTES.get ⟨j, hj⟩)).normal_row_color ∧
      (TableColors.new (PALETTES.get ⟨i, hi⟩)).alt_row_color
        = (TableColors.new (PALETTES.get ⟨j, hj⟩)).alt_row_color) ∧
    ((TableColors.new (PALETTES.get ⟨i, hi⟩)).header_bg
          = (TableColors.new (PALETTES.get ⟨j, hj⟩)).header_bg ∧
        (TableColors.new (PALETTES.get ⟨i, hi⟩)).selected_style_fg
          = (TableColors.new (PALETTES.get ⟨j, hj⟩)).selected_style_fg ∧
        (TableColors.new (PALETTES.get ⟨i, hi⟩)).footer_border_color
          = (TableColors.new (PALETTES.get ⟨j, hj⟩)).footer_border_color →
      TableColors.new (PALETTES.get ⟨i, hi⟩)
        = TableColors.new (PALETTES.get ⟨j, hj⟩)) ∧
    TableColors.new (PALETTES.get ⟨i, hi⟩)
      = TableColors.new (PALETTES.get ⟨i, hi⟩) := by
  refine ⟨⟨rfl, rfl, rfl, rfl, rfl⟩, ?_, rfl⟩
  rintro ⟨h1, h2, h3⟩
  have h1c : (PALETTES.get ⟨i, hi⟩).c900 = (PALETTES.get ⟨j, hj⟩).c900 := h1
  have h2c : (PALETTES.get ⟨i, hi⟩).c400 = (PALETTES.get ⟨j, hj⟩).c400 := h2
  unfold TableColors.new
  rw [h1c, h2c]

/-- C8 witness: palette structure evaluated at theme indices 0 and 1. -/
theorem palette_structure_witness :
    ((TableColors.new (PALETTES.get ⟨0, by decide⟩)).buffer_bg
        = (TableColors.new (PALETTES.get ⟨1, by decide⟩)).buffer_bg ∧
      (TableColors.new (PALETTES.get ⟨0, by decide⟩)).header_fg
        = (TableColors.new (PALETTES.get ⟨1, by decide⟩)).header_fg ∧
      (TableColors.new (PALETTES.get ⟨0, by decide⟩)).row_fg
        = (TableColors.new (PALETTES.get ⟨1, by decide⟩)).row_fg ∧
      (TableColors.new (PALETTES.get ⟨0, by decide⟩)).normal_row_color
        = (TableColors.new (PALETTES.get ⟨1, by decide⟩)).normal_row_color ∧
      (TableColors.new (PALETTES.get ⟨0, by decide⟩)).alt_row_color
        = (TableColors.new (PALETTES.get ⟨1, by decide⟩)).alt_row_color) ∧
    ((TableColors.new (PALETTES.get ⟨0, by decide⟩)).header_bg
          = (TableColors.new (PALETTES.get ⟨1, by decide⟩)).header_bg ∧
        (TableColors.new (PALETTES.get ⟨0, by decide⟩)).selected_style_fg
          = (TableColors.new (PALETTES.get ⟨1, by decide⟩)).selected_style_fg ∧
        (TableColors.new (PALETTES.get ⟨0, by decide⟩)).footer_border_color
          = (TableColors.new (PALETTES.get ⟨1, by decide⟩)).footer_border_color →
      TableColors.new (PALETTES.get ⟨0, by decide⟩)
        = TableColors.new (PALETTES.get ⟨1, by decide⟩)) ∧
    TableColors.new (PALETTES.get ⟨0, by decide⟩)
      = TableColors.new (PALETTES.get ⟨0, by decide⟩) :=
  palette_structure 0 1 (by decide) (by decide)

/-- C9: frame effect of the four navigation operations. The color
operations change only `color_index`, leaving selection, scroll state,
items and resolved colors untouched; `next` and `previous`, when they
succeed, change only selection and scroll state, leaving `color_index`,
colors and items untouched. -/
theorem nav_frame_conditions (a a2 a3 : App) :
    (a.next_color.state = a.state ∧ a.next_color.scroll_state = a.scroll_state ∧
      a.next_color.items = a.items ∧ a.next_color.colors = a.colors ∧
      a.next_color.longest_item_lens = a.longest_item_lens) ∧
    (a.previous_color.state = a.state ∧
      a.previous_color.scroll_state = a.scroll_state ∧
      a.previous_color.items = a.items ∧ a.previous_color.colors = a.colors ∧
      a.previous_color.longest_item_lens = a.longest_item_lens) ∧
    (a.next = .ok a2 → a2.color_index = a.color_index ∧ a2.colors = a.colors ∧
      a2.items = a.items ∧ a2.longest_item_lens = a.longest_item_lens) ∧
    (a.previous = .ok a3 → a3.color_index = a.color_index ∧
      a3.colors = a.colors ∧ a3.items = a.items ∧
      a3.longest_item_lens = a.longest_item_lens) := by
  refine ⟨⟨rfl, rfl, rfl, rfl, rfl⟩, ⟨rfl, rfl, rfl, rfl, rfl⟩, ?_, ?_⟩
  · intro h
    obtain ⟨j, rfl⟩ := App.next_ok_shape a a2 h
    exact ⟨rfl, rfl, rfl, rfl⟩
  · intro h
    obtain ⟨j, rfl⟩ := App.previous_ok_shape a a3 h
    exact ⟨rfl, rfl, rfl, rfl⟩

/-- C9 witness: frame conditions evaluated on the startup app, with the
concrete successful results of `next` and `previous`. -/
theorem nav_frame_conditions_witness :
    (sampleApp.applySelection 1).color_index = sampleApp.color_index ∧
    (sampleApp.applySelection 1).colors = sampleApp.colors ∧
    (sampleApp.applySelection 1).items = sampleApp.items ∧
    (sampleApp.applySelection 1).longest_item_lens = sampleApp.longest_item_lens :=
  (nav_frame_conditions sampleApp (sampleApp.applySelection 1)
    (sampleApp.applySelection 19)).2.2.1 rfl

/-- Navigation preserves the lock-step invariant: an in-range selection
whose scroll position is `selection * ITEM_HEIGHT` stays that way under
any command sequence, and no command panics along the way. -/
lemma runNav_preserves (ops : List NavOp) :
    ∀ a : App, (∃ i, i < a.items.length ∧ a.state.selected = some i ∧
        a.scroll_state.position = i * ITEM_HEIGHT) →
      ∃ a2, runNav a ops = .ok a2 ∧ a2.items = a.items ∧
        ∃ i, i < a2.items.length ∧ a2.state.selected = some i ∧
          a2.scroll_state.position = i * ITEM_HEIGHT := by
  induction ops with
  | nil =>
    intro a h
    exact ⟨a, rfl, rfl, h⟩
  | cons op rest ih =>
    rintro a ⟨i, hi, hs, hp⟩
    have hlen : a.items.length ≠ 0 := by omega
    have step : ∃ b, a.applyNav op = .ok b ∧ b.items = a.items ∧
        ∃ k, k < b.items.length ∧ b.state.selected = some k ∧
          b.scroll_state.position = k * ITEM_HEIGHT := by
      cases op with
      | nextRow =>
        refine ⟨a.applySelection ((i + 1) % a.items.length), ?_, by simp, ?_⟩
        · simp only [App.applyNav]
          exact App.next_eq a i hs hi
        · refine ⟨(i + 1) % a.items.length, ?_, by simp, by simp⟩
          simp only [App.applySelection_items]
          exact Nat.mod_lt _ (by omega)
      | previousRow =>
        refine ⟨a.applySelection ((i + a.items.length - 1) % a.items.length),
          ?_, by simp, ?_⟩
        · simp only [App.applyNav]
          exact App.previous_eq a i hs hi
        · refine ⟨(i + a.items.length - 1) % a.items.length, ?_, by simp, by simp⟩
          simp only [App.applySelection_items]
          exact Nat.mod_lt _ (by omega)
      | nextColor =>
        exact ⟨a.next_color, rfl, by simp,
          ⟨i, by simpa using hi, by simpa using hs, by simpa using hp⟩⟩
      | previousColor =>
        exact ⟨a.previous_color, rfl, by simp,
          ⟨i, by simpa using hi, by simpa using hs, by simpa using hp⟩⟩
    obtain ⟨b, hstep, hbitems, k, hk, hks, hkp⟩ := step
    obtain ⟨a2, hrun, hit2, inv2⟩ := ih b ⟨k, hk, hks, hkp⟩
    refine ⟨a2, ?_, ?_, inv2⟩
    · simp only [runNav, hstep, Except.bind]
      exact hrun
    · rw [hit2, hbitems]

/-- C1: scroll-selection lock-step. Starting from the startup state
(row 0 selected, scroll position 0), every finite sequence of the four
navigation operations succeeds and leaves the scroll position equal to
`selected * ITEM_HEIGHT`, with `ITEM_HEIGHT = 4`. -/
theorem scroll_selection_lockstep (data : List Data) (ops : List NavOp)
    (hn : 1 ≤ data.length) :
    ITEM_HEIGHT = 4 ∧
    (App.new data).state.selected = some 0 ∧
    (App.new data).scroll_state.position = 0 ∧
    ∃ a2, runNav (App.new data) ops = .ok a2 ∧
      ∃ i, a2.state.selected = some i ∧
        a2.scroll_state.position = i * ITEM_HEIGHT := by
  refine ⟨rfl, rfl, by rfl, ?_⟩
  have hinv : ∃ i, i < (App.new data).items.length ∧
      (App.new data).state.selected = some i ∧
      (App.new data).scroll_state.position = i * ITEM_HEIGHT :=
    ⟨0, by simpa [App.new] using hn, rfl, by rfl⟩
  obtain ⟨a2, hrun, _, i, _, hs, hp⟩ := runNav_preserves ops (App.new data) hinv
  exact ⟨a2, hrun, i, hs, hp⟩

/-- C1 witness: the lock-step invariant evaluated on a 20-record startup
state and a concrete command sequence. -/
theorem scroll_selection_lockstep_witness :
    ITEM_HEIGHT = 4 ∧
    (App.new (List.replicate 20 sampleRecord)).state.selected = some 0 ∧
    (App.new (List.replicate 20 sampleRecord)).scroll_state.position = 0 ∧
    ∃ a2, runNav (App.new (List.replicate 20 sampleRecord))
        [NavOp.previousRow, NavOp.nextColor, NavOp.nextRow] = .ok a2 ∧
      ∃ i, a2.state.selected = some i ∧
        a2.scroll_state.position = i * ITEM_HEIGHT :=
  scroll_selection_lockstep (List.replicate 20 sampleRecord)
    [NavOp.previousRow, NavOp.nextColor, NavOp.nextRow] (by decide)

/-- Iterated `App::next`, stopping at a panic. -/
def iterateNext : Nat → App → Except String App
  | 0, a => .ok a
  | k + 1, a => a.next.bind (iterateNext k)

/-- After `k` iterations of `next` from a valid selection `i`, the
selection is `(i + k) mod n` and the items are unchanged. -/
lemma iterateNext_selection (k : Nat) :
    ∀ (a : App) (i : Nat), a.state.selected = some i → i < a.items.length →
      ∃ a2, iterateNext k a = .ok a2 ∧ a2.items = a.items ∧
        a2.state.selected = some ((i + k) % a.items.length) := by
  induction k with
  | zero =>
    intro a i hs hi
    refine ⟨a, rfl, rfl, ?_⟩
    rw [Nat.add_zero, Nat.mod_eq_of_lt hi]
    exact hs
  | succ k ih =>
    intro a i hs hi
    have hlen : a.items.length ≠ 0 := by omega
    have h1 := App.next_eq a i hs hi
    have hbs : (a.applySelection ((i + 1) % a.items.length)).state.selected
        = some ((i + 1) % a.items.length) := by simp
    have hbi : (i + 1) % a.items.length
        < (a.applySelection ((i + 1) % a.items.length)).items.length := by
      simp only [App.applySelection_items]
      exact Nat.mod_lt _ (by omega)
    obtain ⟨a2, h2, hit, hsel⟩ :=
      ih (a.applySelection ((i + 1) % a.items.length)) _ hbs hbi
    refine ⟨a2, ?_, ?_, ?_⟩
    · simp only [iterateNext, h1, Except.bind]
      exact h2
    · rw [hit]
      simp
    · rw [hsel]
      simp only [App.applySelection_items]
      rw [Nat.mod_add_mod]
      congr 2
      omega

/-- Wrapping one step forward then one step back is the identity on an
in-range index. -/
lemma succ_pred_mod (n i : Nat) (hn : 1 ≤ n) (hi : i < n) :
    ((i + 1) % n + n - 1) % n = i := by
  rcases Nat.lt_or_ge (i + 1) n with h | h
  · rw [Nat.mod_eq_of_lt h]
    have heq : i + 1 + n - 1 = i + n := by omega
    rw [heq, Nat.add_mod_right, Nat.mod_eq_of_lt hi]
  · have h1 : i + 1 = n := by omega
    rw [h1, Nat.mod_self, Nat.zero_add,
      Nat.mod_eq_of_lt (show n - 1 < n by omega)]
    omega

/-- Wrapping one step back then one step forward is the identity on an
in-range index. -/
lemma pred_succ_mod (n i : Nat) (hn : 1 ≤ n) (hi : i < n) :
    ((i + n - 1) % n + 1) % n = i := by
  rcases Nat.eq_zero_or_pos i with h0 | h0
  · subst h0
    have heq : 0 + n - 1 = n - 1 := by omega
    rw [heq, Nat.mod_eq_of_lt (show n - 1 < n by omega)]
    have heq2 : n - 1 + 1 = n := by omega
    rw [heq2, Nat.mod_self]
  · have heq : i + n - 1 = (i - 1) + n := by omega
    rw [heq, Nat.add_mod_right,
      Nat.mod_eq_of_lt (show i - 1 < n by omega)]
    have heq2 : i - 1 + 1 = i := by omega
    rw [heq2, Nat.mod_eq_of_lt hi]

/-- C3: row wraparound round-trip. From any valid selection, applying
`next` exactly `n` times (`n` the item count) restores the selection,
and `previous` is the exact inverse of `next` on the selection; on the
20-item startup state, `previous` from row 0 yields row 19 and scroll
position 76. -/
theorem next_previous_roundtrip :
    (∀ (a : App) (i : Nat), a.state.selected = some i → i < a.items.length →
      (∃ a2, iterateNext a.items.length a = .ok a2 ∧
        a2.state.selected = a.state.selected) ∧
      (∃ a2, a.next.bind App.previous = .ok a2 ∧
        a2.state.selected = a.state.selected) ∧
      (∃ a2, a.previous.bind App.next = .ok a2 ∧
        a2.state.selected = a.state.selected)) ∧
    (∃ a2, sampleApp.previous = .ok a2 ∧ a2.state.selected = some 19 ∧
      a2.scroll_state.position = 76) := by
  constructor
  · intro a i hs hi
    have hn : 1 ≤ a.items.length := by omega
    refine ⟨?_, ?_, ?_⟩
    · obtain ⟨a2, h2, hit, hsel⟩ := iterateNext_selection a.items.length a i hs hi
      refine ⟨a2, h2, ?_⟩
      rw [hsel, hs, Nat.add_mod_right, Nat.mod_eq_of_lt hi]
    · have h1 := App.next_eq a i hs hi
      have hbs : (a.applySelection ((i + 1) % a.items.length)).state.selected
          = some ((i + 1) % a.items.length) := by simp
      have hbi : (i + 1) % a.items.length
          < (a.applySelection ((i + 1) % a.items.length)).items.length := by
        simp only [App.applySelection_items]
        exact Nat.mod_lt _ (by omega)
      have h2 := App.previous_eq (a.applySelection ((i + 1) % a.items.length))
        _ hbs hbi
      have hcomp : a.next.bind App.previous = .ok
          ((a.applySelection ((i + 1) % a.items.length)).applySelection
            (((i + 1) % a.items.length +
                (a.applySelection ((i + 1) % a.items.length)).items.length - 1) %
              (a.applySelection ((i + 1) % a.items.length)).items.length)) := by
        rw [h1]
        simp only [Except.bind]
        exact h2
      refine ⟨_, hcomp, ?_⟩
      simp only [App.applySelection_selected, App.applySelection_items, hs]
      rw [succ_pred_mod _ _ hn hi]
    · have h1 := App.previous_eq a i hs hi
      have hbs : (a.applySelection
          ((i + a.items.length - 1) % a.items.length)).state.selected
          = some ((i + a.items.length - 1) % a.items.length) := by simp
      have hbi : (i + a.items.length - 1) % a.items.length
          < (a.applySelection
              ((i + a.items.length - 1) % a.items.length)).items.length := by
        simp only [App.applySelection_items]
        exact Nat.mod_lt _ (by omega)
      have h2 := App.next_eq (a.applySelection
        ((i + a.items.length - 1) % a.items.length)) _ hbs hbi
      have hcomp : a.previous.bind App.next = .ok
          ((a.applySelection ((i + a.items.length - 1) % a.items.length)).applySelection
            (((i + a.items.length - 1) % a.items.length + 1) %
              (a.applySelection
                ((i + a.items.length - 1) % a.items.length)).items.length)) := by
        rw [h1]
        simp only [Except.bind]
        exact h2
      refine ⟨_, hcomp, ?_⟩
      simp only [App.applySelection_selected, App.applySelection_items, hs]
      rw [pred_succ_mod _ _ hn hi]
  · exact ⟨sampleApp.applySelection 19, rfl, by decide, by decide⟩

/-- C3 witness: the round-trip laws evaluated on the 20-item startup
state with row 0 selected. -/
theorem next_previous_roundtrip_witness :
    (∃ a2, iterateNext sampleApp.items.length sampleApp = .ok a2 ∧
      a2.state.selected = sampleApp.state.selected) ∧
    (∃ a2, sampleApp.next.bind App.previous = .ok a2 ∧
      a2.state.selected = sampleApp.state.selected) ∧
    (∃ a2, sampleApp.previous.bind App.next = .ok a2 ∧
      a2.state.selected = sampleApp.state.selected) :=
  next_previous_roundtrip.1 sampleApp 0 rfl (by decide)

/-- C7: loop decision logic. A pressed quit or escape key terminates the
loop at once: the iteration's single preceding draw is the last one, the
app state is returned untouched and the remaining events are never
consumed. Non-press key events are ignored. Any pressed key outside the
ten command codes is a no-op that keeps the loop running with the state
unchanged. -/
theorem loop_decision_logic (a : App) (rest : List Event)
    (kind : KeyEventKind) (code : KeyCode) :
    ((code = .char 'q' ∨ code = .esc) →
      run_app a (Event.key .press code :: rest) = (1, .exited a)) ∧
    (kind ≠ .press →
      run_app a (Event.key kind code :: rest) =
        ((run_app a rest).1 + 1, (run_app a rest).2)) ∧
    (code ∉ ([KeyCode.char 'q', KeyCode.esc, KeyCode.char 'j', KeyCode.down,
        KeyCode.char 'k', KeyCode.up, KeyCode.char 'l', KeyCode.right,
        KeyCode.char 'h', KeyCode.left] : List KeyCode) →
      handleKeyPress a code = .ok (some a) ∧
      run_app a (Event.key .press code :: rest) =
        ((run_app a rest).1 + 1, (run_app a rest).2)) := by
  refine ⟨?_, ?_, ?_⟩
  · intro h
    have hk : handleKeyPress a code = .ok none := by
      unfold handleKeyPress
      rw [if_pos h]
    simp [run_app, hk]
  · intro h
    simp [run_app, h]
  · intro h
    simp only [List.mem_cons, List.not_mem_nil, or_false, not_or] at h
    obtain ⟨h1, h2, h3, h4, h5, h6, h7, h8, h9, h10⟩ := h
    have hk : handleKeyPress a code = .ok (some a) := by
      unfold handleKeyPress
      rw [if_neg (by simp [h1, h2]), if_neg (by simp [h3, h4]),
        if_neg (by simp [h5, h6]), if_neg (by simp [h7, h8]),
        if_neg (by simp [h9, h10])]
    exact ⟨hk, by simp [run_app, hk]⟩

/-- C7 witness: the loop decision logic evaluated on the startup app for
a pressed escape, a released escape, and a pressed unbound key. -/
theorem loop_decision_logic_witness :
    run_app sampleApp [Event.key .press .esc, Event.nonKey] =
      (1, .exited sampleApp) ∧
    run_app sampleApp [Event.key .release .esc] =
      ((run_app sampleApp []).1 + 1, (run_app sampleApp []).2) ∧
    handleKeyPress sampleApp (.char 'x') = .ok (some sampleApp) :=
  ⟨(loop_decision_logic sampleApp [Event.nonKey] .press .esc).1 (Or.inr rfl),
   (loop_decision_logic sampleApp [] .release .esc).2.1 (by decide),
   ((loop_decision_logic sampleApp [] .press (.char 'x')).2.2 (by decide)).1⟩

/-- C2 counterexample: a record whose name has display width 65536 makes
the calculator return 0 for the name column (the `as u16` cast truncates),
so the returned value is not the maximum display width. -/
def wideRecord : Data :=
  { name := String.mk (List.replicate 65536 'a'), address := "", email := "" }

/-- Value of `maxOrZero` on a one-element list. -/
lemma maxOrZero_singleton (x : Nat) : maxOrZero [x] = x := rfl

/-- Name width returned by the calculator on a one-record list. -/
lemma constraint_len_singleton_name (d : Data) :
    (constraint_len_calculator [d]).1 = strWidth d.name % 65536 := by
  simp only [constraint_len_calculator_def, List.map_cons, List.map_nil,
    maxOrZero_singleton]

/-- C2 counterexample theorem: on `[wideRecord]` the calculator's name
width is 0 while the true maximum name width is 65536. -/
theorem width_calculator_counterexample :
    strWidth wideRecord.name = 65536 ∧
    (constraint_len_calculator [wideRecord]).1 = 0 ∧
    (constraint_len_calculator [wideRecord]).1 ≠ strWidth wideRecord.name := by
  have hc : charWidth 'a' = 1 := by decide
  have hw : strWidth wideRecord.name = 65536 := by
    show strWidth (String.mk (List.replicate 65536 'a')) = 65536
    rw [strWidth_replicate, hc, Nat.mul_one]
  have h1 := constraint_len_singleton_name wideRecord
  rw [hw, Nat.mod_self] at h1
  refine ⟨hw, h1, ?_⟩
  rw [h1, hw]
  omega

/-- C2 amended: whenever every field width and address-line width is
below 2^16 (so the `as u16` cast is lossless), the calculator returns
exactly the maximum display widths: each returned width bounds every
record's field (and every address line), is attained, and is 0 on the
empty list; on the spec's two-record dataset it returns (26, 33, 40). -/
theorem width_calculator_correct (items : List Data)
    (hb : ∀ d ∈ items, strWidth d.name < 65536 ∧ strWidth d.email < 65536 ∧
      ∀ l ∈ linesOf d.address, strWidth l < 65536) :
    (∀ d ∈ items,
      strWidth d.name ≤ (constraint_len_calculator items).1 ∧
      strWidth d.email ≤ (constraint_len_calculator items).2.2 ∧
      ∀ l ∈ linesOf d.address,
        strWidth l ≤ (constraint_len_calculator items).2.1) ∧
    (items = [] → constraint_len_calculator items = (0, 0, 0)) ∧
    (items ≠ [] →
      (∃ d ∈ items, strWidth d.name = (constraint_len_calculator items).1) ∧
      (∃ d ∈ items, strWidth d.email = (constraint_len_calculator items).2.2)) ∧
    ((constraint_len_calculator items).2.1 = 0 ∨
      ∃ d ∈ items, ∃ l ∈ linesOf d.address,
        strWidth l = (constraint_len_calculator items).2.1) ∧
    constraint_len_calculator testData = (26, 33, 40) := by
  have hmax_n : maxOrZero (items.map fun d => strWidth d.name) < 65536 := by
    rcases maxOrZero_zero_or_mem (items.map fun d => strWidth d.name) with h | h
    · omega
    · obtain ⟨d, hd, hwd⟩ := List.mem_map.mp h
      rw [← hwd]
      exact (hb d hd).1
  have hmax_e : maxOrZero (items.map fun d => strWidth d.email) < 65536 := by
    rcases maxOrZero_zero_or_mem (items.map fun d => strWidth d.email) with h | h
    · omega
    · obtain ⟨d, hd, hwd⟩ := List.mem_map.mp h
      rw [← hwd]
      exact (hb d hd).2.1
  have hmax_a : maxOrZero
      ((items.flatMap fun d => linesOf d.address).map strWidth) < 65536 := by
    rcases maxOrZero_zero_or_mem
      ((items.flatMap fun d => linesOf d.address).map strWidth) with h | h
    · omega
    · obtain ⟨l, hl, hwl⟩ := List.mem_map.mp h
      obtain ⟨d, hd, hld⟩ := List.mem_flatMap.mp hl
      rw [← hwl]
      exact (hb d hd).2.2 l hld
  have hc1 : (constraint_len_calculator items).1
      = maxOrZero (items.map fun d => strWidth d.name) := by
    rw [constraint_len_calculator_def]
    exact Nat.mod_eq_of_lt hmax_n
  have hc2 : (constraint_len_calculator items).2.1
      = maxOrZero ((items.flatMap fun d => linesOf d.address).map strWidth) := by
    rw [constraint_len_calculator_def]
    exact Nat.mod_eq_of_lt hmax_a
  have hc3 : (constraint_len_calculator items).2.2
      = maxOrZero (items.map fun d => strWidth d.email) := by
    rw [constraint_len_calculator_def]
    exact Nat.mod_eq_of_lt hmax_e
  refine ⟨?_, ?_, ?_, ?_, by decide⟩
  · intro d hd
    refine ⟨?_, ?_, ?_⟩
    · rw [hc1]
      exact le_maxOrZero (List.mem_map_of_mem _ hd)
    · rw [hc3]
      exact le_maxOrZero (List.mem_map_of_mem _ hd)
    · intro l hl
      rw [hc2]
      exact le_maxOrZero
        (List.mem_map_of_mem _ (List.mem_flatMap.mpr ⟨d, hd, hl⟩))
  · intro h
    subst h
    rfl
  · intro hne
    constructor
    · have hnl : items.map (fun d => strWidth d.name) ≠ [] := by
        cases items with
        | nil => exact absurd rfl hne
        | cons d ds => simp
      obtain ⟨d, hd, hwd⟩ := List.mem_map.mp (maxOrZero_mem hnl)
      exact ⟨d, hd, by rw [hwd, hc1]⟩
    · have hel : items.map (fun d => strWidth d.email) ≠ [] := by
        cases items with
        | nil => exact absurd rfl hne
        | cons d ds => simp
      obtain ⟨d, hd, hwd⟩ := List.mem_map.mp (maxOrZero_mem hel)
      exact ⟨d, hd, by rw [hwd, hc3]⟩
  · rcases maxOrZero_zero_or_mem
      ((items.flatMap fun d => linesOf d.address).map strWidth) with h | h
    · left
      rw [hc2, h]
    · right
      obtain ⟨l, hl, hwl⟩ := List.mem_map.mp h
      obtain ⟨d, hd, hld⟩ := List.mem_flatMap.mp hl
      exact ⟨d, hd, l, hld, by rw [hwl, hc2]⟩

/-- C2 witness: the amended width-correctness theorem evaluated on the
spec's two-record dataset. -/
theorem width_calculator_correct_witness :
    (∀ d ∈ testData,
      strWidth d.name ≤ (constraint_len_calculator testData).1 ∧
      strWidth d.email ≤ (constraint_len_calculator testData).2.2 ∧
      ∀ l ∈ linesOf d.address,
        strWidth l ≤ (constraint_len_calculator testData).2.1) ∧
    constraint_len_calculator testData = (26, 33, 40) :=
  ⟨(width_calculator_correct testData (by decide)).1,
   (width_calculator_correct testData (by decide)).2.2.2.2⟩

/-- The true maximum display width of the name field, as the spec
defines it (a fold of `max`, with no cast). -/
def maxNameWidth (items : List Data) : Nat :=
  (items.map fun d => strWidth d.name).foldr max 0

/-- The true maximum display width over all address lines. -/
def maxAddressLineWidth (items : List Data) : Nat :=
  ((items.flatMap fun d => linesOf d.address).map strWidth).foldr max 0

/-- The true maximum display width of the email field. -/
def maxEmailWidth (items : List Data) : Nat :=
  (items.map fun d => strWidth d.email).foldr max 0

/-- C10: width truncation. Each returned width equals the true maximum
modulo 2^16, and for any record (or address line) whose display width
exceeds 65535 the returned width is strictly smaller than that width, so
the cell no longer fits. -/
theorem width_truncation (items : List Data) (d : Data) (hd : d ∈ items) :
    ((constraint_len_calculator items).1 = maxNameWidth items % 65536 ∧
      (65535 < strWidth d.name →
        (constraint_len_calculator items).1 < strWidth d.name)) ∧
    ((constraint_len_calculator items).2.1 = maxAddressLineWidth items % 65536 ∧
      ∀ l ∈ linesOf d.address, 65535 < strWidth l →
        (constraint_len_calculator items).2.1 < strWidth l) ∧
    ((constraint_len_calculator items).2.2 = maxEmailWidth items % 65536 ∧
      (65535 < strWidth d.email →
        (constraint_len_calculator items).2.2 < strWidth d.email)) := by
  have e1 : (constraint_len_calculator items).1 = maxNameWidth items % 65536 := by
    simp only [constraint_len_calculator_def, maxOrZero_eq_foldr, maxNameWidth]
  have e2 : (constraint_len_calculator items).2.1
      = maxAddressLineWidth items % 65536 := by
    simp only [constraint_len_calculator_def, maxOrZero_eq_foldr,
      maxAddressLineWidth]
  have e3 : (constraint_len_calculator items).2.2
      = maxEmailWidth items % 65536 := by
    simp only [constraint_len_calculator_def, maxOrZero_eq_foldr, maxEmailWidth]
  have hb1 : maxNameWidth items % 65536 < 65536 := Nat.mod_lt _ (by decide)
  have hb2 : maxAddressLineWidth items % 65536 < 65536 := Nat.mod_lt _ (by decide)
  have hb3 : maxEmailWidth items % 65536 < 65536 := Nat.mod_lt _ (by decide)
  refine ⟨⟨e1, ?_⟩, ⟨e2, ?_⟩, ⟨e3, ?_⟩⟩
  · intro h
    rw [e1]
    omega
  · intro l hl h
    rw [e2]
    omega
  · intro h
    rw [e3]
    omega

/-- C10 witness input: a record whose name is 70000 columns wide. -/
def wideRecord2 : Data :=
  { name := String.mk (List.replicate 70000 'a'), address := "", email := "" }

/-- C10 witness: on a record with a 70000-column name, the returned name
width is strictly smaller than the name's true display width. -/
theorem width_truncation_witness :
    65535 < strWidth wideRecord2.name ∧
    (constraint_len_calculator [wideRecord2]).1 < strWidth wideRecord2.name := by
  have hc : charWidth 'a' = 1 := by decide
  have hw : strWidth wideRecord2.name = 70000 := by
    show strWidth (String.mk (List.replicate 70000 'a')) = 70000
    rw [strWidth_replicate, hc, Nat.mul_one]
  have hlt : 65535 < strWidth wideRecord2.name := by
    rw [hw]
    decide
  exact ⟨hlt,
    ((width_truncation [wideRecord2] wideRecord2 (by simp)).1.2 hlt)⟩

end TableExample
